import Mathlib

/-!
Shallow embedding of the `libjail-rs` core (`src/lib.rs`): the jail error
taxonomy, the `StoppedJail` builder, the `RunningJail` handle, the `Jail` sum
type, and the `StoppedJail::start` lifecycle transition.

The kernel side (`sys::jail_create`, `param::set`, `param::get`,
`sys::jail_remove`, implemented in `src/sys.rs` / `src/param.rs`, which are
not part of the sources here) is modelled as an abstract, purely functional
kernel oracle `Kernel σ` over an explicit kernel state `σ`.  Every operation
that talks to the kernel additionally returns the list of syscalls it issued
(`SysCall`), so that claims about call order and about "no kernel call
happens" can be stated and proved.
-/

set_option maxHeartbeats 1000000

deriving instance DecidableEq for Except

namespace LibJail

/-- Error type of the library, embedding `JailError` from `src/lib.rs`
(lines 36–90).  Payloads that are foreign error values in Rust
(`std::io::Error`, `sysctl::SysctlError`, `sysctl::CtlType`) are modelled as
strings; the structure of the variants is kept. -/
inductive JailError where
  | IoError (msg : String)
  | JailGetError (msg : String)
  | JailSetError (msg : String)
  | JailRemoveFailed
  | PathNotGiven
  | NoSuchParameter (name : String)
  | ParameterTypeError (msg : String)
  | ParameterStringLengthError (msg : String)
  | ParameterStructLengthError (msg : String)
  | JailMaxAfIpsFailed (msg : String)
  | ParameterLengthNaN (s : String)
  | ParameterTypeUnsupported (t : String)
  | UnexpectedParameterType (name expected got : String)
  | ParameterUnpackError
  | SerializeFailed
deriving DecidableEq, Repr

/-- Embedding of `std::net::IpAddr`: a tagged union of an IPv4 and an IPv6
address.  The numeric payload of an address is irrelevant to the claims, so
it is modelled as a `Nat` (standing for the 32-bit resp. 128-bit value). -/
inductive IpAddr where
  | V4 (addr : Nat)
  | V6 (addr : Nat)
deriving DecidableEq, Repr

/-- Embedding of `IpAddr::is_ipv4`. -/
def IpAddr.is_ipv4 : IpAddr → Bool
  | IpAddr.V4 _ => true
  | IpAddr.V6 _ => false

/-- Embedding of `IpAddr::is_ipv6`. -/
def IpAddr.is_ipv6 : IpAddr → Bool
  | IpAddr.V4 _ => false
  | IpAddr.V6 _ => true

/-- Modelled from the spec: `param::Value` (from `src/param.rs`, not among
the sources).  Spec §3: "a tagged union representing every parameter payload
shape the kernel ABI supports: signed/unsigned integers of at least two
widths, a boolean flag, a UTF-8 string, an opaque fixed-size structure blob,
an ordered sequence of IPv4 addresses, an ordered sequence of IPv6
addresses."  `lib.rs` uses the variants `Int`, `Ipv4Addrs` and `Ipv6Addrs`
by name.  Rust's `String` variant is called `Str` here, to keep the builtin
`String` visible inside the `Value` namespace. -/
inductive Value where
  | Int (i : Int)
  | Long (i : Int)
  | Uint (u : Nat)
  | Ulong (u : Nat)
  | Bool (b : Bool)
  | Str (s : String)
  | Struct (bytes : List Nat)
  | Ipv4Addrs (addrs : List Nat)
  | Ipv6Addrs (addrs : List Nat)
deriving DecidableEq, Repr

/-- Modelled from the spec: `Value::unpack_string` (from `src/param.rs`, not
among the sources) extracts the string payload and fails on any other tag
(spec §7: decode that "could not produce a valid result" is
`ParameterUnpackError`). -/
def Value.unpack_string : Value → Except JailError String
  | Value.Str s => Except.ok s
  | _ => Except.error JailError.ParameterUnpackError

/-- Modelled from the spec: `Value::unpack_ipv4` (from `src/param.rs`, not
among the sources) extracts the IPv4 address list payload and fails on any
other tag. -/
def Value.unpack_ipv4 : Value → Except JailError (List Nat)
  | Value.Ipv4Addrs l => Except.ok l
  | _ => Except.error JailError.ParameterUnpackError

/-- Modelled from the spec: `Value::unpack_ipv6` (from `src/param.rs`, not
among the sources) extracts the IPv6 address list payload and fails on any
other tag. -/
def Value.unpack_ipv6 : Value → Except JailError (List Nat)
  | Value.Ipv6Addrs l => Except.ok l
  | _ => Except.error JailError.ParameterUnpackError

/-- Embedding of `StoppedJail` (`src/lib.rs` lines 101–116).  `PathBuf` is
modelled as `String`; the `HashMap<String, Value>` is modelled as an
association list with unique keys maintained by `insertParam` (Rust's
`HashMap` iteration order is unspecified; the list order stands for one
such order). -/
structure StoppedJail where
  path : Option String
  name : Option String
  hostname : Option String
  params : List (String × Value)
  ips : List IpAddr
deriving DecidableEq, Repr

/-- Embedding of `RunningJail` (`src/lib.rs` lines 121–124): exactly one
field, the `jid` (an `i32` in Rust, modelled as `Int`). -/
structure RunningJail where
  jid : Int
deriving DecidableEq, Repr

/-- Embedding of `RunningJail::from_jid` (`src/lib.rs` lines 390–392):
stores the given jid; "No checks will be performed." -/
def RunningJail.from_jid (jid : Int) : RunningJail :=
  { jid := jid }

/-- Embedding of the derived `PartialEq`/`Eq` on `RunningJail`: field-wise
equality on the single field `jid`. -/
def RunningJail.beq (a b : RunningJail) : Bool :=
  a.jid == b.jid

/-- Embedding of the derived `PartialOrd`/`Ord` on `RunningJail`:
lexicographic field-wise comparison, i.e. comparison of the single field
`jid`.  `ble a b` is `a <= b`. -/
def RunningJail.ble (a b : RunningJail) : Bool :=
  decide (a.jid ≤ b.jid)

/-- Embedding of the derived `Hash` on `RunningJail`: the derived instance
feeds exactly the fields — here only `jid` — to the hasher `h`.  The hasher
itself is abstract. -/
def RunningJail.hashWith (h : Int → Nat) (a : RunningJail) : Nat :=
  h a.jid

/-- Embedding of `impl Default for StoppedJail` (`src/lib.rs` lines
209–219). -/
def StoppedJail.default : StoppedJail :=
  { path := none, name := none, hostname := none, params := [], ips := [] }

/-- Embedding of `StoppedJail::new` (`src/lib.rs` lines 232–236): the
default value with the path set. -/
def StoppedJail.new (p : String) : StoppedJail :=
  { StoppedJail.default with path := some p }

/-- Embedding of `HashMap::insert` on the association-list model of the
params map: replace the value at an existing key, otherwise add the new
entry. -/
def insertParam : List (String × Value) → String → Value → List (String × Value)
  | [], n, v => [(n, v)]
  | (m, w) :: rest, n, v =>
    if m = n then (n, v) :: rest else (m, w) :: insertParam rest n v

/-- Embedding of `HashMap::get` on the association-list model of the params
map. -/
def lookupParam : List (String × Value) → String → Option Value
  | [], _ => none
  | (m, w) :: rest, n => if m = n then some w else lookupParam rest n

/-- Embedding of the builder setter `StoppedJail::name` (`src/lib.rs` lines
311–314).  Named `setName` because `name` is taken by the field
projection. -/
def StoppedJail.setName (s : StoppedJail) (n : String) : StoppedJail :=
  { s with name := some n }

/-- Embedding of the builder setter `StoppedJail::hostname` (`src/lib.rs`
lines 329–332).  Named `setHostname` because `hostname` is taken by the
field projection. -/
def StoppedJail.setHostname (s : StoppedJail) (h : String) : StoppedJail :=
  { s with hostname := some h }

/-- Embedding of the builder setter `StoppedJail::param` (`src/lib.rs`
lines 346–349): `self.params.insert(param.into(), value)`. -/
def StoppedJail.param (s : StoppedJail) (n : String) (v : Value) : StoppedJail :=
  { s with params := insertParam s.params n v }

/-- Embedding of the builder setter `StoppedJail::ip` (`src/lib.rs` lines
363–366): `self.ips.push(ip)` appends at the end. -/
def StoppedJail.ip (s : StoppedJail) (a : IpAddr) : StoppedJail :=
  { s with ips := s.ips ++ [a] }

/-- The IPv4-only subsequence of an IP list, embedding the
`filter(is_ipv4).map(unwrap V4)` expression inside `StoppedJail::start`
(`src/lib.rs` lines 266–275).  The `V6` arm embeds the source's unreachable
match arm (it can never be hit after the filter). -/
def ipv4Addrs (ips : List IpAddr) : List Nat :=
  (ips.filter IpAddr.is_ipv4).map fun ip =>
    match ip with
    | IpAddr.V4 a => a
    | IpAddr.V6 _ => 0

/-- The IPv6-only subsequence of an IP list, embedding the
`filter(is_ipv6).map(unwrap V6)` expression inside `StoppedJail::start`
(`src/lib.rs` lines 277–286). -/
def ipv6Addrs (ips : List IpAddr) : List Nat :=
  (ips.filter IpAddr.is_ipv6).map fun ip =>
    match ip with
    | IpAddr.V4 _ => 0
    | IpAddr.V6 a => a

/-- A kernel call issued by the library, for reasoning about call traces. -/
inductive SysCall where
  | create (path : String) (name hostname : Option String)
  | setParam (jid : Int) (name : String) (v : Value)
  | remove (jid : Int)
deriving DecidableEq, Repr

/-- Modelled from the spec: the kernel side of `sys::jail_create`,
`param::set`, `param::get`, `sys::jail_getid` and `sys::jail_remove`
(`src/sys.rs` / `src/param.rs`, not among the sources), abstracted as a
purely functional oracle over a kernel state `σ`.  `create` returns the new
jid (spec §6); `setParam`/`getParam` stand for the
registry-encode-write / read-decode pipeline for one named parameter
(spec §4.2/§4.3); each state-changing operation returns the successor
state. -/
structure Kernel (σ : Type) where
  create : σ → String → Option String → Option String → Except JailError Int × σ
  setParam : σ → Int → String → Value → Except JailError Unit × σ
  getParam : σ → Int → String → Except JailError Value
  getid : σ → String → Except JailError Int
  remove : σ → Int → Except JailError Unit × σ

/-- Runs a list of `param::set` calls in order against the kernel, stopping
at the first error (the `?` operator in Rust), and records the trace of
issued calls.  This is the shape of the write sequence inside
`StoppedJail::start` (`src/lib.rs` lines 288–294). -/
def runSets {σ : Type} (k : Kernel σ) (jid : Int) :
    σ → List (String × Value) → Except JailError Unit × σ × List SysCall
  | st, [] => (Except.ok (), st, [])
  | st, (n, v) :: rest =>
    match k.setParam st jid n v with
    | (Except.error e, st') => (Except.error e, st', [SysCall.setParam jid n v])
    | (Except.ok _, st') =>
      match runSets k jid st' rest with
      | (r, st'', tr) => (r, st'', SysCall.setParam jid n v :: tr)

/-- Embedding of `StoppedJail::start` (`src/lib.rs` lines 253–297):
fail with `PathNotGiven` when no path is set (before any kernel call);
otherwise issue `jail_create`, then write `ip4.addr` and `ip6.addr` from
the split IP list, then every remaining parameter, propagating the first
error.  Returns the result, the final kernel state, and the trace of
issued calls. -/
def StoppedJail.start {σ : Type} (s : StoppedJail) (k : Kernel σ) (st : σ) :
    Except JailError RunningJail × σ × List SysCall :=
  match s.path with
  | none => (Except.error JailError.PathNotGiven, st, [])
  | some p =>
    match k.create st p s.name s.hostname with
    | (Except.error e, st₁) =>
      (Except.error e, st₁, [SysCall.create p s.name s.hostname])
    | (Except.ok jid, st₁) =>
      let ret := RunningJail.from_jid jid
      let ip4s := Value.Ipv4Addrs (ipv4Addrs s.ips)
      let ip6s := Value.Ipv6Addrs (ipv6Addrs s.ips)
      match runSets k ret.jid st₁ (("ip4.addr", ip4s) :: ("ip6.addr", ip6s) :: s.params) with
      | (Except.error e, st₂, tr) =>
        (Except.error e, st₂, SysCall.create p s.name s.hostname :: tr)
      | (Except.ok _, st₂, tr) =>
        (Except.ok ret, st₂, SysCall.create p s.name s.hostname :: tr)

/-- Embedding of `RunningJail::from_name` (`src/lib.rs` lines 414–416):
resolve the jid via `jail_getid` and wrap it. -/
def RunningJail.from_name {σ : Type} (k : Kernel σ) (st : σ) (n : String) :
    Except JailError RunningJail :=
  (k.getid st n).map RunningJail.from_jid

/-- Embedding of `RunningJail::param` (`src/lib.rs` lines 514–516):
`param::get(self.jid, name)`. -/
def RunningJail.param {σ : Type} (k : Kernel σ) (st : σ) (r : RunningJail)
    (n : String) : Except JailError Value :=
  k.getParam st r.jid n

/-- Embedding of `RunningJail::name` (`src/lib.rs` lines 436–438):
`self.param("name")?.unpack_string()`. -/
def RunningJail.name {σ : Type} (k : Kernel σ) (st : σ) (r : RunningJail) :
    Except JailError String :=
  (RunningJail.param k st r "name").bind Value.unpack_string

/-- Embedding of `RunningJail::hostname` (`src/lib.rs` lines 459–461):
`self.param("host.hostname")?.unpack_string()`. -/
def RunningJail.hostname {σ : Type} (k : Kernel σ) (st : σ) (r : RunningJail) :
    Except JailError String :=
  (RunningJail.param k st r "host.hostname").bind Value.unpack_string

/-- Embedding of `RunningJail::ips` (`src/lib.rs` lines 481–498): read and
unpack `ip4.addr`, then `ip6.addr`, and return the v4 block followed by the
v6 block. -/
def RunningJail.ips {σ : Type} (k : Kernel σ) (st : σ) (r : RunningJail) :
    Except JailError (List IpAddr) :=
  match (RunningJail.param k st r "ip4.addr").bind Value.unpack_ipv4 with
  | Except.error e => Except.error e
  | Except.ok v4 =>
    match (RunningJail.param k st r "ip6.addr").bind Value.unpack_ipv6 with
    | Except.error e => Except.error e
    | Except.ok v6 => Except.ok (v4.map IpAddr.V4 ++ v6.map IpAddr.V6)

/-- Embedding of `RunningJail::param_set` (`src/lib.rs` lines 534–536). -/
def RunningJail.param_set {σ : Type} (k : Kernel σ) (st : σ) (r : RunningJail)
    (n : String) (v : Value) : Except JailError Unit × σ :=
  k.setParam st r.jid n v

/-- Embedding of `RunningJail::kill` (`src/lib.rs` lines 551–553):
`sys::jail_remove(self.jid)`, discarding the success payload. -/
def RunningJail.kill {σ : Type} (k : Kernel σ) (st : σ) (r : RunningJail) :
    Except JailError Unit × σ :=
  k.remove st r.jid

/-- Embedding of the sum type `Jail` (`src/lib.rs` lines 128–131). -/
inductive Jail where
  | Stopped (s : StoppedJail)
  | Running (r : RunningJail)
deriving DecidableEq, Repr

/-- Embedding of `Jail::is_started` (`src/lib.rs` lines 147–152). -/
def Jail.is_started : Jail → Bool
  | Jail.Running _ => true
  | Jail.Stopped _ => false

/-- Embedding of `Jail::start` (`src/lib.rs` lines 158–163): a no-op on a
running jail, dispatch to `StoppedJail::start` (wrapping a success in
`Jail::Running`) on a stopped one. -/
def Jail.start {σ : Type} (k : Kernel σ) (st : σ) :
    Jail → Except JailError Jail × σ × List SysCall
  | Jail.Running r => (Except.ok (Jail.Running r), st, [])
  | Jail.Stopped s =>
    match StoppedJail.start s k st with
    | (res, st', tr) => (res.map Jail.Running, st', tr)

/-- Embedding of `Jail::name` (`src/lib.rs` lines 166–174): kernel
round-trip for `Running`, local field lookup (error `NoSuchParameter
"name"` when unset) for `Stopped`. -/
def Jail.name {σ : Type} (k : Kernel σ) (st : σ) : Jail → Except JailError String
  | Jail.Running r => RunningJail.name k st r
  | Jail.Stopped s =>
    match s.name with
    | some n => Except.ok n
    | none => Except.error (JailError.NoSuchParameter "name")

/-- Embedding of `Jail::hostname` (`src/lib.rs` lines 177–185). -/
def Jail.hostname {σ : Type} (k : Kernel σ) (st : σ) : Jail → Except JailError String
  | Jail.Running r => RunningJail.hostname k st r
  | Jail.Stopped s =>
    match s.hostname with
    | some h => Except.ok h
    | none => Except.error (JailError.NoSuchParameter "hostname")

/-- Embedding of `Jail::ips` (`src/lib.rs` lines 188–193): for `Stopped`
always `Ok` with the stored list. -/
def Jail.ips {σ : Type} (k : Kernel σ) (st : σ) : Jail → Except JailError (List IpAddr)
  | Jail.Running r => RunningJail.ips k st r
  | Jail.Stopped s => Except.ok s.ips

/-- Embedding of `Jail::param` (`src/lib.rs` lines 196–205): for `Stopped`
a lookup in the in-memory params map. -/
def Jail.param {σ : Type} (k : Kernel σ) (st : σ) (j : Jail) (n : String) :
    Except JailError Value :=
  match j with
  | Jail.Running r => RunningJail.param k st r n
  | Jail.Stopped s =>
    match lookupParam s.params n with
    | some v => Except.ok v
    | none => Except.error (JailError.NoSuchParameter n)

/-- Replay of a single recorded syscall against the kernel: the result a
call in a trace produced, with `create`'s jid payload erased. -/
def applyCall {σ : Type} (k : Kernel σ) (st : σ) : SysCall → Except JailError Unit × σ
  | SysCall.create p n h =>
    match k.create st p n h with
    | (Except.ok _, st') => (Except.ok (), st')
    | (Except.error e, st') => (Except.error e, st')
  | SysCall.setParam j n v => k.setParam st j n v
  | SysCall.remove j => k.remove st j

/-- Replay of a recorded syscall trace: the cumulative kernel state after
issuing exactly those calls in order. -/
def applyTrace {σ : Type} (k : Kernel σ) : σ → List SysCall → σ
  | st, [] => st
  | st, c :: cs => applyTrace k (applyCall k st c).2 cs

/-- A concrete kernel-state model for executing the embedding: a jid
counter and a write log (most recent first). -/
structure SimState where
  nextJid : Int
  store : List (Int × String × Value)
deriving DecidableEq, Repr

/-- Latest write recorded for a jid/name pair, if any. -/
def storeGet (store : List (Int × String × Value)) (j : Int) (n : String) :
    Option Value :=
  (store.find? fun e => e.1 == j && e.2.1 == n).map fun e => e.2.2

/-- Initial simulated kernel state: no jails, jids start at 1. -/
def SimState.init : SimState :=
  { nextJid := 1, store := [] }

/-- A concrete, never-failing kernel instance over `SimState`: `create`
hands out the next jid, `setParam` logs the write (latest wins),
`getParam` returns the latest logged write for the jid/name pair. -/
def goodKernel : Kernel SimState where
  create := fun st _ _ _ =>
    (Except.ok st.nextJid, { st with nextJid := st.nextJid + 1 })
  setParam := fun st j n v =>
    (Except.ok (), { st with store := (j, n, v) :: st.store })
  getParam := fun st j n =>
    match storeGet st.store j n with
    | some v => Except.ok v
    | none => Except.error (JailError.NoSuchParameter n)
  getid := fun _ n => Except.error (JailError.JailGetError n)
  remove := fun st _ => (Except.ok (), st)

/-!  Theorems for the claims. -/

/-- C1: for every `StoppedJail` whose `path` field is `None`, `start()`
fails with `PathNotGiven`, the kernel state is untouched and the syscall
trace is empty — no kernel call is made. -/
theorem start_no_path {σ : Type} (k : Kernel σ) (st : σ) (s : StoppedJail)
    (h : s.path = none) :
    s.start k st = (Except.error JailError.PathNotGiven, st, []) := by
  unfold StoppedJail.start
  rw [h]

/-- Witness for `start_no_path` at the default builder and the simulated
kernel. -/
theorem start_no_path_witness :
    StoppedJail.default.start goodKernel SimState.init =
      (Except.error JailError.PathNotGiven, SimState.init, []) :=
  start_no_path goodKernel SimState.init StoppedJail.default rfl

/-- C5: on the `Stopped` variant, `Jail::name`, `Jail::hostname`,
`Jail::ips` and `Jail::param` are pure local lookups: their results do not
depend on the kernel or its state (first block), `name`/`hostname` return
the stored field or a `NoSuchParameter` error when it is `None`, `param`
returns the map entry or a `NoSuchParameter` error when absent, and `ips`
always succeeds with the stored list unchanged. -/
theorem jail_stopped_local {σ σ' : Type} (k : Kernel σ) (st : σ)
    (k' : Kernel σ') (st' : σ') (s : StoppedJail) :
    (Jail.name k st (Jail.Stopped s) = Jail.name k' st' (Jail.Stopped s) ∧
      Jail.hostname k st (Jail.Stopped s) = Jail.hostname k' st' (Jail.Stopped s) ∧
      Jail.ips k st (Jail.Stopped s) = Jail.ips k' st' (Jail.Stopped s) ∧
      ∀ n, Jail.param k st (Jail.Stopped s) n = Jail.param k' st' (Jail.Stopped s) n) ∧
    Jail.name k st (Jail.Stopped s) =
      (match s.name with
       | some n => Except.ok n
       | none => Except.error (JailError.NoSuchParameter "name")) ∧
    Jail.hostname k st (Jail.Stopped s) =
      (match s.hostname with
       | some h => Except.ok h
       | none => Except.error (JailError.NoSuchParameter "hostname")) ∧
    Jail.ips k st (Jail.Stopped s) = Except.ok s.ips ∧
    ∀ n, Jail.param k st (Jail.Stopped s) n =
      (match lookupParam s.params n with
       | some v => Except.ok v
       | none => Except.error (JailError.NoSuchParameter n)) :=
  ⟨⟨rfl, rfl, rfl, fun _ => rfl⟩, rfl, rfl, rfl, fun _ => rfl⟩

/-- C7: equality, ordering and hashing of `RunningJail` are determined
purely by the `jid` handle: `beq` agrees with equality of the jids (and
with equality of the values), `ble` agrees with `≤` on the jids, and equal
jids hash equally under every hasher. -/
theorem running_jail_by_jid (a b : RunningJail) (h : Int → Nat) :
    (RunningJail.beq a b = true ↔ a.jid = b.jid) ∧
    (RunningJail.beq a b = true ↔ a = b) ∧
    (RunningJail.ble a b = true ↔ a.jid ≤ b.jid) ∧
    (a.jid = b.jid → RunningJail.hashWith h a = RunningJail.hashWith h b) := by
  refine ⟨?_, ?_, ?_, ?_⟩
  · simp [RunningJail.beq]
  · cases a; cases b; simp [RunningJail.beq]
  · simp [RunningJail.ble]
  · intro hj; simp [RunningJail.hashWith, hj]

/-- Witness for `running_jail_by_jid`: equal jids give equal hashes at
jid 7 and a constant hasher. -/
theorem running_jail_by_jid_witness :
    RunningJail.hashWith (fun j => j.natAbs) (RunningJail.from_jid 7) =
      RunningJail.hashWith (fun j => j.natAbs) (RunningJail.from_jid 7) :=
  (running_jail_by_jid (RunningJail.from_jid 7) (RunningJail.from_jid 7)
    (fun j => j.natAbs)).2.2.2 rfl

/-- C8: every builder setter is a pure value transformation touching only
its own field: `setName` only `name`, `setHostname` only `hostname`,
`param` only `params` (via `insertParam`), and `ip` appends to `ips`; all
other fields are returned unchanged. -/
theorem builder_setters_frame (s : StoppedJail) (n h pn : String)
    (v : Value) (a : IpAddr) :
    ((s.setName n).name = some n ∧ (s.setName n).path = s.path ∧
      (s.setName n).hostname = s.hostname ∧ (s.setName n).params = s.params ∧
      (s.setName n).ips = s.ips) ∧
    ((s.setHostname h).hostname = some h ∧ (s.setHostname h).path = s.path ∧
      (s.setHostname h).name = s.name ∧ (s.setHostname h).params = s.params ∧
      (s.setHostname h).ips = s.ips) ∧
    ((s.param pn v).params = insertParam s.params pn v ∧
      (s.param pn v).path = s.path ∧ (s.param pn v).name = s.name ∧
      (s.param pn v).hostname = s.hostname ∧ (s.param pn v).ips = s.ips) ∧
    ((s.ip a).ips = s.ips ++ [a] ∧ (s.ip a).path = s.path ∧
      (s.ip a).name = s.name ∧ (s.ip a).hostname = s.hostname ∧
      (s.ip a).params = s.params) :=
  ⟨⟨rfl, rfl, rfl, rfl, rfl⟩, ⟨rfl, rfl, rfl, rfl, rfl⟩,
    ⟨rfl, rfl, rfl, rfl, rfl⟩, ⟨rfl, rfl, rfl, rfl, rfl⟩⟩

/-- Helper: under a kernel whose `setParam` never fails, `runSets` succeeds
and its trace is exactly one `setParam` call per list entry, in list
order. -/
theorem runSets_all_ok {σ : Type} (k : Kernel σ) (jid : Int)
    (hset : ∀ st j n v, (k.setParam st j n v).1 = Except.ok ()) :
    ∀ (l : List (String × Value)) (st : σ),
      (runSets k jid st l).1 = Except.ok () ∧
      (runSets k jid st l).2.2 = l.map fun pv => SysCall.setParam jid pv.1 pv.2 := by
  intro l
  induction l with
  | nil => intro st; exact ⟨rfl, rfl⟩
  | cons hd rest ih =>
    intro st
    rcases hd with ⟨n, v⟩
    have h1 := hset st jid n v
    rcases hsp : k.setParam st jid n v with ⟨r, st'⟩
    rw [hsp] at h1
    have hr : r = Except.ok () := h1
    subst hr
    have ih' := ih st'
    rcases hrs : runSets k jid st' rest with ⟨r2, st'', tr⟩
    rw [hrs] at ih'
    have hr2 : r2 = Except.ok () := ih'.1
    have htr : tr = rest.map fun pv => SysCall.setParam jid pv.1 pv.2 := ih'.2
    subst hr2; subst htr
    simp [runSets, hsp, hrs]

/-- C2: with a path set and a successful kernel create, `start()` issues
the create call first, then writes `ip4.addr` with exactly the IPv4-only
subsequence of the builder's IP list and `ip6.addr` with exactly the
IPv6-only subsequence (both written unconditionally, the equation holds
also when the subsequences are empty), and only then the remaining
caller-specified parameters — shown here under a kernel whose parameter
writes succeed, as the full syscall trace. -/
theorem start_writes_ips {σ : Type} (k : Kernel σ) (st : σ) (s : StoppedJail)
    (p : String) (jid : Int) (st₁ : σ)
    (hp : s.path = some p)
    (hc : k.create st p s.name s.hostname = (Except.ok jid, st₁))
    (hset : ∀ st' j n v, (k.setParam st' j n v).1 = Except.ok ()) :
    (s.start k st).2.2 =
      SysCall.create p s.name s.hostname ::
      SysCall.setParam jid "ip4.addr" (Value.Ipv4Addrs (ipv4Addrs s.ips)) ::
      SysCall.setParam jid "ip6.addr" (Value.Ipv6Addrs (ipv6Addrs s.ips)) ::
      s.params.map (fun pv => SysCall.setParam jid pv.1 pv.2) := by
  have h := runSets_all_ok k jid hset
    (("ip4.addr", Value.Ipv4Addrs (ipv4Addrs s.ips)) ::
      ("ip6.addr", Value.Ipv6Addrs (ipv6Addrs s.ips)) :: s.params) st₁
  rcases hrs : runSets k jid st₁
      (("ip4.addr", Value.Ipv4Addrs (ipv4Addrs s.ips)) ::
        ("ip6.addr", Value.Ipv6Addrs (ipv6Addrs s.ips)) :: s.params) with ⟨r, st₂, tr⟩
  rw [hrs] at h
  have hr : r = Except.ok () := h.1
  have htr : tr =
      SysCall.setParam jid "ip4.addr" (Value.Ipv4Addrs (ipv4Addrs s.ips)) ::
      SysCall.setParam jid "ip6.addr" (Value.Ipv6Addrs (ipv6Addrs s.ips)) ::
      s.params.map (fun pv => SysCall.setParam jid pv.1 pv.2) := h.2
  subst hr; subst htr
  simp [StoppedJail.start, hp, hc, RunningJail.from_jid, hrs]

/-- Witness for `start_writes_ips`: a builder with path `/rescue`, an
interleaved IP list and one extra parameter, run against the simulated
kernel; the trace is create, then the v4 block, then the v6 block, then
the parameter write. -/
theorem start_writes_ips_witness :
    ((((StoppedJail.new "/rescue").ip (IpAddr.V4 1)).ip (IpAddr.V6 2)).ip (IpAddr.V4 3)
        |>.param "allow.raw_sockets" (Value.Int 1)).start goodKernel SimState.init
      |>.2.2 =
      [SysCall.create "/rescue" none none,
        SysCall.setParam 1 "ip4.addr" (Value.Ipv4Addrs [1, 3]),
        SysCall.setParam 1 "ip6.addr" (Value.Ipv6Addrs [2]),
        SysCall.setParam 1 "allow.raw_sockets" (Value.Int 1)] := by
  have h := start_writes_ips goodKernel SimState.init
    ((((StoppedJail.new "/rescue").ip (IpAddr.V4 1)).ip (IpAddr.V6 2)).ip (IpAddr.V4 3)
      |>.param "allow.raw_sockets" (Value.Int 1))
    "/rescue" 1 ⟨2, []⟩ rfl rfl (fun _ _ _ _ => rfl)
  exact h.trans (by decide)

/-- Helper: the state returned by `runSets` is the replay of its own
trace, every call in the trace is a `setParam` for the given jid, and when
`runSets` fails the error is exactly the error of the last issued call. -/
theorem runSets_replay {σ : Type} (k : Kernel σ) (jid : Int) :
    ∀ (l : List (String × Value)) (st : σ),
      (∀ c ∈ (runSets k jid st l).2.2, ∃ n v, c = SysCall.setParam jid n v) ∧
      (runSets k jid st l).2.1 = applyTrace k st (runSets k jid st l).2.2 ∧
      ∀ e, (runSets k jid st l).1 = Except.error e →
        ∃ pre c, (runSets k jid st l).2.2 = pre ++ [c] ∧
          (applyCall k (applyTrace k st pre) c).1 = Except.error e := by
  intro l
  induction l with
  | nil =>
    intro st
    refine ⟨?_, rfl, ?_⟩
    · intro c hc
      simp [runSets] at hc
    · intro e he
      simp [runSets] at he
  | cons hd rest ih =>
    intro st
    rcases hd with ⟨n, v⟩
    rcases hsp : k.setParam st jid n v with ⟨r, st'⟩
    cases r with
    | error e0 =>
      have hrun : runSets k jid st ((n, v) :: rest) =
          (Except.error e0, st', [SysCall.setParam jid n v]) := by
        simp [runSets, hsp]
      rw [hrun]
      refine ⟨?_, ?_, ?_⟩
      · intro c hc
        rw [List.mem_singleton] at hc
        exact ⟨n, v, hc⟩
      · simp [applyTrace, applyCall, hsp]
      · intro e he
        have he0 : e0 = e := by
          injection he
        subst he0
        refine ⟨[], SysCall.setParam jid n v, rfl, ?_⟩
        simp [applyTrace, applyCall, hsp]
    | ok u =>
      cases u
      rcases hrs : runSets k jid st' rest with ⟨r2, st'', tr⟩
      have ih' := ih st'
      rw [hrs] at ih'
      obtain ⟨ihmem, ihst, iherr⟩ := ih'
      have hrun : runSets k jid st ((n, v) :: rest) =
          (r2, st'', SysCall.setParam jid n v :: tr) := by
        simp [runSets, hsp, hrs]
      rw [hrun]
      have hstep : ∀ cs : List SysCall,
          applyTrace k st (SysCall.setParam jid n v :: cs) = applyTrace k st' cs := by
        intro cs
        simp [applyTrace, applyCall, hsp]
      refine ⟨?_, ?_, ?_⟩
      · intro c hc
        rw [List.mem_cons] at hc
        rcases hc with hc | hc
        · exact ⟨n, v, hc⟩
        · exact ihmem c hc
      · rw [hstep]
        exact ihst
      · intro e he
        rcases iherr e he with ⟨pre, c, htr, hcall⟩
        have htr' : tr = pre ++ [c] := htr
        refine ⟨SysCall.setParam jid n v :: pre, c, by simp [htr'], ?_⟩
        rw [hstep]
        exact hcall

/-- C4: when `start()` on a builder with a path fails — the create itself
or any later `ip4.addr`/`ip6.addr`/parameter write — the underlying kernel
error of the last issued call is returned unchanged, no compensating
`remove` call is ever issued, and nothing is rolled back: the returned
kernel state is exactly the replay of the issued call trace. -/
theorem start_error_propagation {σ : Type} (k : Kernel σ) (st : σ)
    (s : StoppedJail) (p : String) (e : JailError)
    (hp : s.path = some p)
    (he : (s.start k st).1 = Except.error e) :
    (∀ j, SysCall.remove j ∉ (s.start k st).2.2) ∧
    (s.start k st).2.1 = applyTrace k st (s.start k st).2.2 ∧
    ∃ pre c, (s.start k st).2.2 = pre ++ [c] ∧
      (applyCall k (applyTrace k st pre) c).1 = Except.error e := by
  rcases hc : k.create st p s.name s.hostname with ⟨rc, st₁⟩
  cases rc with
  | error e0 =>
    have hrun : s.start k st =
        (Except.error e0, st₁, [SysCall.create p s.name s.hostname]) := by
      simp [StoppedJail.start, hp, hc]
    rw [hrun] at he ⊢
    have he0 : e0 = e := by
      injection he
    subst he0
    refine ⟨?_, ?_, ?_⟩
    · intro j hj
      rw [List.mem_singleton] at hj
      cases hj
    · simp [applyTrace, applyCall, hc]
    · refine ⟨[], SysCall.create p s.name s.hostname, rfl, ?_⟩
      simp [applyTrace, applyCall, hc]
  | ok jid =>
    rcases hrs : runSets k jid st₁
        (("ip4.addr", Value.Ipv4Addrs (ipv4Addrs s.ips)) ::
          ("ip6.addr", Value.Ipv6Addrs (ipv6Addrs s.ips)) :: s.params)
      with ⟨r2, st₂, tr⟩
    have hrep := runSets_replay k jid
      (("ip4.addr", Value.Ipv4Addrs (ipv4Addrs s.ips)) ::
        ("ip6.addr", Value.Ipv6Addrs (ipv6Addrs s.ips)) :: s.params) st₁
    rw [hrs] at hrep
    obtain ⟨ihmem, ihst, iherr⟩ := hrep
    have hstep : ∀ cs : List SysCall,
        applyTrace k st (SysCall.create p s.name s.hostname :: cs) =
          applyTrace k st₁ cs := by
      intro cs
      simp [applyTrace, applyCall, hc]
    cases r2 with
    | ok u =>
      exfalso
      cases u
      have : (s.start k st).1 = Except.ok (RunningJail.from_jid jid) := by
        simp [StoppedJail.start, hp, hc, RunningJail.from_jid, hrs]
      rw [this] at he
      cases he
    | error e1 =>
      have hrun : s.start k st =
          (Except.error e1, st₂, SysCall.create p s.name s.hostname :: tr) := by
        simp [StoppedJail.start, hp, hc, RunningJail.from_jid, hrs]
      rw [hrun] at he ⊢
      have he1 : e1 = e := by
        injection he
      subst he1
      refine ⟨?_, ?_, ?_⟩
      · intro j hj
        rw [List.mem_cons] at hj
        rcases hj with hj | hj
        · cases hj
        · rcases ihmem _ hj with ⟨n', v', hj'⟩
          cases hj'
      · rw [hstep]
        exact ihst
      · rcases iherr e1 rfl with ⟨pre, c, htr, hcall⟩
        have htr' : tr = pre ++ [c] := htr
        refine ⟨SysCall.create p s.name s.hostname :: pre, c, by simp [htr'], ?_⟩
        rw [hstep]
        exact hcall

/-- A kernel over `SimState` whose parameter writes fail on one specific
name, for exercising the error path of `start`. -/
def failKernel : Kernel SimState where
  create := fun st _ _ _ =>
    (Except.ok st.nextJid, { st with nextJid := st.nextJid + 1 })
  setParam := fun st j n v =>
    if n = "bad" then (Except.error (JailError.JailSetError "bad"), st)
    else (Except.ok (), { st with store := (j, n, v) :: st.store })
  getParam := fun st j n =>
    match storeGet st.store j n with
    | some v => Except.ok v
    | none => Except.error (JailError.NoSuchParameter n)
  getid := fun _ n => Except.error (JailError.JailGetError n)
  remove := fun st _ => (Except.ok (), st)

/-- Witness for `start_error_propagation`: a builder with one parameter
whose write the kernel rejects. -/
theorem start_error_propagation_witness :
    (∀ j, SysCall.remove j ∉
      (((StoppedJail.new "/rescue").param "bad" (Value.Int 0)).start failKernel
        SimState.init).2.2) ∧
    (((StoppedJail.new "/rescue").param "bad" (Value.Int 0)).start failKernel
        SimState.init).2.1 =
      applyTrace failKernel SimState.init
        ((((StoppedJail.new "/rescue").param "bad" (Value.Int 0)).start failKernel
          SimState.init).2.2) ∧
    ∃ pre c,
      (((StoppedJail.new "/rescue").param "bad" (Value.Int 0)).start failKernel
          SimState.init).2.2 = pre ++ [c] ∧
      (applyCall failKernel (applyTrace failKernel SimState.init pre) c).1 =
        Except.error (JailError.JailSetError "bad") :=
  start_error_propagation failKernel SimState.init
    ((StoppedJail.new "/rescue").param "bad" (Value.Int 0)) "/rescue"
    (JailError.JailSetError "bad") rfl (by decide)

/-- Helper: an entry count of a key in the params-map model. -/
def countKey (l : List (String × Value)) (n : String) : Nat :=
  (l.filter fun pv => pv.1 == n).length

/-- Helper: a key that is not among the keys of the list has count 0. -/
theorem countKey_eq_zero_of_notMem (n : String) :
    ∀ l : List (String × Value), n ∉ l.map Prod.fst → countKey l n = 0 := by
  intro l
  induction l with
  | nil => intro _; rfl
  | cons hd rest ih =>
    rcases hd with ⟨m, w⟩
    intro h
    rw [List.map_cons, List.mem_cons] at h
    push_neg at h
    have hmn : (m == n) = false := beq_eq_false_iff_ne.mpr fun he => h.1 he.symm
    have h0 := ih h.2
    simp only [countKey, List.filter_cons] at h0 ⊢
    simp [hmn, h0]

/-- Helper: inserting into a params map with distinct keys leaves exactly
one entry for the inserted key. -/
theorem countKey_insertParam (n : String) (v : Value) :
    ∀ l : List (String × Value), (l.map Prod.fst).Nodup →
      countKey (insertParam l n v) n = 1 := by
  intro l
  induction l with
  | nil =>
    intro _
    simp [insertParam, countKey]
  | cons hd rest ih =>
    rcases hd with ⟨m, w⟩
    intro hnd
    rw [List.map_cons, List.nodup_cons] at hnd
    by_cases hm : m = n
    · have h0 : countKey rest n = 0 := by
        apply countKey_eq_zero_of_notMem
        rw [← hm]
        exact hnd.1
      simp only [insertParam]
      rw [if_pos hm]
      simp only [countKey, List.filter_cons] at h0 ⊢
      simp [h0]
    · have hmn : (m == n) = false := beq_eq_false_iff_ne.mpr hm
      have h1 := ih hnd.2
      simp only [insertParam]
      rw [if_neg hm]
      simp only [countKey, List.filter_cons] at h1 ⊢
      simp [hmn, h1]

/-- Helper: a lookup after an insert finds the inserted value. -/
theorem lookupParam_insertParam (n : String) (v : Value) :
    ∀ l : List (String × Value), lookupParam (insertParam l n v) n = some v := by
  intro l
  induction l with
  | nil => simp [insertParam, lookupParam]
  | cons hd rest ih =>
    rcases hd with ⟨m, w⟩
    by_cases hm : m = n
    · simp only [insertParam]
      rw [if_pos hm]
      simp [lookupParam]
    · simp only [insertParam]
      rw [if_neg hm]
      simp [lookupParam, hm, ih]

/-- Helper: keys after an insert are the inserted key or old keys. -/
theorem keys_insertParam_subset (n : String) (v : Value) :
    ∀ (l : List (String × Value)) (m : String),
      m ∈ (insertParam l n v).map Prod.fst → m = n ∨ m ∈ l.map Prod.fst := by
  intro l
  induction l with
  | nil =>
    intro m h
    simp only [insertParam, List.map_cons, List.map_nil] at h
    rw [List.mem_singleton] at h
    exact Or.inl h
  | cons hd rest ih =>
    rcases hd with ⟨m', w⟩
    intro m h
    by_cases hm : m' = n
    · simp only [insertParam] at h
      rw [if_pos hm, List.map_cons, List.mem_cons] at h
      rcases h with h | h
      · exact Or.inl h
      · right; rw [List.map_cons, List.mem_cons]; exact Or.inr h
    · simp only [insertParam] at h
      rw [if_neg hm, List.map_cons, List.mem_cons] at h
      rcases h with h | h
      · right; rw [List.map_cons, List.mem_cons]; exact Or.inl h
      · rcases ih m h with h' | h'
        · exact Or.inl h'
        · right; rw [List.map_cons, List.mem_cons]; exact Or.inr h'

/-- Helper: an insert keeps the keys of the params map distinct. -/
theorem nodup_insertParam (n : String) (v : Value) :
    ∀ l : List (String × Value), (l.map Prod.fst).Nodup →
      ((insertParam l n v).map Prod.fst).Nodup := by
  intro l
  induction l with
  | nil =>
    intro _
    simp only [insertParam, List.map_cons, List.map_nil]
    exact List.nodup_singleton n
  | cons hd rest ih =>
    rcases hd with ⟨m, w⟩
    intro hnd
    rw [List.map_cons, List.nodup_cons] at hnd
    by_cases hm : m = n
    · simp only [insertParam]
      rw [if_pos hm, List.map_cons, List.nodup_cons]
      subst hm
      exact ⟨hnd.1, hnd.2⟩
    · simp only [insertParam]
      rw [if_neg hm, List.map_cons, List.nodup_cons]
      refine ⟨fun hmem => ?_, ih hnd.2⟩
      rcases keys_insertParam_subset n v rest m hmem with h' | h'
      · exact hm h'
      · exact hnd.1 h'

/-- C9: setting the same parameter name twice leaves exactly one entry for
that name, holding the second value, and inserts never create duplicate
keys: on a params map with distinct keys, the result of
`s.param(n, v1).param(n, v2)` still has distinct keys. -/
theorem param_unique_overwrite (s : StoppedJail) (n : String) (v1 v2 : Value)
    (hnd : (s.params.map Prod.fst).Nodup) :
    countKey ((s.param n v1).param n v2).params n = 1 ∧
    lookupParam ((s.param n v1).param n v2).params n = some v2 ∧
    (((s.param n v1).param n v2).params.map Prod.fst).Nodup := by
  have h1 := nodup_insertParam n v1 s.params hnd
  exact ⟨countKey_insertParam n v2 _ h1, lookupParam_insertParam n v2 _,
    nodup_insertParam n v2 _ h1⟩

/-- Witness for `param_unique_overwrite` at the default builder. -/
theorem param_unique_overwrite_witness :
    countKey ((StoppedJail.default.param "allow.raw_sockets" (Value.Int 0)).param
        "allow.raw_sockets" (Value.Int 1)).params "allow.raw_sockets" = 1 ∧
    lookupParam ((StoppedJail.default.param "allow.raw_sockets" (Value.Int 0)).param
        "allow.raw_sockets" (Value.Int 1)).params "allow.raw_sockets" =
      some (Value.Int 1) ∧
    ((((StoppedJail.default.param "allow.raw_sockets" (Value.Int 0)).param
        "allow.raw_sockets" (Value.Int 1)).params.map Prod.fst).Nodup) :=
  param_unique_overwrite StoppedJail.default "allow.raw_sockets"
    (Value.Int 0) (Value.Int 1) List.nodup_nil

/-- Helper: `runSets` against the simulated kernel always succeeds. -/
theorem runSets_good_ok (jid : Int) (l : List (String × Value)) (st : SimState) :
    (runSets goodKernel jid st l).1 = Except.ok () :=
  (runSets_all_ok goodKernel jid (fun _ _ _ _ => rfl) l st).1

/-- Helper: the create operation of the simulated kernel, as an
equation. -/
theorem goodKernel_create (st : SimState) (p : String) (n h : Option String) :
    goodKernel.create st p n h =
      (Except.ok st.nextJid, { st with nextJid := st.nextJid + 1 }) := rfl

/-- Helper: the parameter-write operation of the simulated kernel, as an
equation. -/
theorem goodKernel_setParam (st : SimState) (j : Int) (n : String) (v : Value) :
    goodKernel.setParam st j n v =
      (Except.ok (), { st with store := (j, n, v) :: st.store }) := rfl

/-- Helper: one step of `runSets` against the simulated kernel logs the
write and recurses. -/
theorem runSets_good_cons (jid : Int) (n : String) (v : Value)
    (st : SimState) (rest : List (String × Value)) :
    runSets goodKernel jid st ((n, v) :: rest) =
      ((runSets goodKernel jid { st with store := (jid, n, v) :: st.store } rest).1,
        (runSets goodKernel jid { st with store := (jid, n, v) :: st.store } rest).2.1,
        SysCall.setParam jid n v ::
          (runSets goodKernel jid { st with store := (jid, n, v) :: st.store } rest).2.2) := by
  rcases h : runSets goodKernel jid { st with store := (jid, n, v) :: st.store } rest
    with ⟨r, st', tr⟩
  simp [runSets, goodKernel_setParam, h]

/-- Helper: a write log entry for a name no list entry mentions is
unchanged by `runSets` against the simulated kernel. -/
theorem runSets_good_store (jid : Int) (n : String) :
    ∀ (l : List (String × Value)) (st : SimState) (j : Int),
      (∀ pv ∈ l, pv.1 ≠ n) →
      storeGet ((runSets goodKernel jid st l).2.1).store j n =
        storeGet st.store j n := by
  intro l
  induction l with
  | nil => intro st j _; rfl
  | cons hd rest ih =>
    rcases hd with ⟨m, v⟩
    intro st j hne
    have hm : m ≠ n := hne (m, v) (List.mem_cons_self _ _)
    have hrest : ∀ pv ∈ rest, pv.1 ≠ n := fun pv h => hne pv (List.mem_cons_of_mem _ h)
    rw [runSets_good_cons]
    have hih := ih { st with store := (jid, m, v) :: st.store } j hrest
    rw [hih]
    simp [storeGet, List.find?_cons, beq_eq_false_iff_ne.mpr hm]

/-- C3 counterexample: the claim quantifies over every successfully started
`StoppedJail`, but a builder may also set `ip4.addr` directly in its params
map; the params writes happen after the ip-list writes, so they overwrite
them.  With ip list `[V4 7]` and a params entry `ip4.addr := [42]`, the
start succeeds and `ips()` returns `[V4 42]`, not the v4 block `[V4 7]` of
the builder's ip list. -/
theorem ips_after_start_cex :
    ((((StoppedJail.new "/rescue").ip (IpAddr.V4 7)).param "ip4.addr"
        (Value.Ipv4Addrs [42])).start goodKernel SimState.init).1 =
      Except.ok (RunningJail.from_jid 1) ∧
    RunningJail.ips goodKernel
        ((((StoppedJail.new "/rescue").ip (IpAddr.V4 7)).param "ip4.addr"
          (Value.Ipv4Addrs [42])).start goodKernel SimState.init).2.1
        (RunningJail.from_jid 1) =
      Except.ok [IpAddr.V4 42] ∧
    ipv4Addrs ((((StoppedJail.new "/rescue").ip (IpAddr.V4 7)).param "ip4.addr"
        (Value.Ipv4Addrs [42])).ips) = [7] ∧
    ipv6Addrs ((((StoppedJail.new "/rescue").ip (IpAddr.V4 7)).param "ip4.addr"
        (Value.Ipv4Addrs [42])).ips) = [] ∧
    (Except.ok [IpAddr.V4 42] : Except JailError (List IpAddr)) ≠
      Except.ok ([IpAddr.V4 7] ++ []) := by
  refine ⟨by decide, by decide, by decide, by decide, by decide⟩

/-- C3 amended: for a builder whose params map does not itself name
`ip4.addr` or `ip6.addr`, a successful `start()` against the simulated
kernel followed by `ips()` returns the IPv4 addresses of the builder's ip
list in their original relative order, then the IPv6 addresses in their
original relative order (cross-family interleaving is not restored). -/
theorem ips_after_start (s : StoppedJail) (p : String)
    (hp : s.path = some p)
    (h4 : ∀ pv ∈ s.params, pv.1 ≠ "ip4.addr")
    (h6 : ∀ pv ∈ s.params, pv.1 ≠ "ip6.addr") :
    ∃ r stF tr, s.start goodKernel SimState.init = (Except.ok r, stF, tr) ∧
      RunningJail.ips goodKernel stF r =
        Except.ok ((ipv4Addrs s.ips).map IpAddr.V4 ++
          (ipv6Addrs s.ips).map IpAddr.V6) := by
  rcases h : runSets goodKernel 1
      { nextJid := 2,
        store := [(1, "ip6.addr", Value.Ipv6Addrs (ipv6Addrs s.ips)),
          (1, "ip4.addr", Value.Ipv4Addrs (ipv4Addrs s.ips))] } s.params
    with ⟨r2, stF, tr2⟩
  have hok : r2 = Except.ok () := by
    have h2 := runSets_good_ok 1 s.params
      { nextJid := 2,
        store := [(1, "ip6.addr", Value.Ipv6Addrs (ipv6Addrs s.ips)),
          (1, "ip4.addr", Value.Ipv4Addrs (ipv4Addrs s.ips))] }
    rw [h] at h2
    exact h2
  subst hok
  have hs4 : storeGet stF.store 1 "ip4.addr" =
      some (Value.Ipv4Addrs (ipv4Addrs s.ips)) := by
    have hh := runSets_good_store 1 "ip4.addr" s.params
      { nextJid := 2,
        store := [(1, "ip6.addr", Value.Ipv6Addrs (ipv6Addrs s.ips)),
          (1, "ip4.addr", Value.Ipv4Addrs (ipv4Addrs s.ips))] } 1 h4
    rw [h] at hh
    rw [hh]
    rfl
  have hs6 : storeGet stF.store 1 "ip6.addr" =
      some (Value.Ipv6Addrs (ipv6Addrs s.ips)) := by
    have hh := runSets_good_store 1 "ip6.addr" s.params
      { nextJid := 2,
        store := [(1, "ip6.addr", Value.Ipv6Addrs (ipv6Addrs s.ips)),
          (1, "ip4.addr", Value.Ipv4Addrs (ipv4Addrs s.ips))] } 1 h6
    rw [h] at hh
    rw [hh]
    rfl
  refine ⟨RunningJail.from_jid 1, stF,
    SysCall.create p s.name s.hostname ::
      SysCall.setParam 1 "ip4.addr" (Value.Ipv4Addrs (ipv4Addrs s.ips)) ::
      SysCall.setParam 1 "ip6.addr" (Value.Ipv6Addrs (ipv6Addrs s.ips)) :: tr2,
    ?_, ?_⟩
  · simp [StoppedJail.start, hp, SimState.init, goodKernel_create,
      RunningJail.from_jid, runSets_good_cons, h]
  · simp [RunningJail.ips, RunningJail.param, goodKernel, RunningJail.from_jid,
      hs4, hs6, Except.bind, Value.unpack_ipv4, Value.unpack_ipv6]

/-- Witness for `ips_after_start`: the spec's example scenario, a builder
with one IPv4 and one IPv6 address. -/
theorem ips_after_start_witness :
    ∃ r stF tr,
      ((((StoppedJail.new "/rescue").setName "t1").setHostname "t1.test").ip
          (IpAddr.V4 2130706690) |>.ip (IpAddr.V6 42)).start goodKernel
        SimState.init = (Except.ok r, stF, tr) ∧
      RunningJail.ips goodKernel stF r =
        Except.ok ((ipv4Addrs (((((StoppedJail.new "/rescue").setName
          "t1").setHostname "t1.test").ip (IpAddr.V4 2130706690) |>.ip
          (IpAddr.V6 42)).ips)).map IpAddr.V4 ++
          (ipv6Addrs (((((StoppedJail.new "/rescue").setName
            "t1").setHostname "t1.test").ip (IpAddr.V4 2130706690) |>.ip
            (IpAddr.V6 42)).ips)).map IpAddr.V6) :=
  ips_after_start
    ((((StoppedJail.new "/rescue").setName "t1").setHostname "t1.test").ip
      (IpAddr.V4 2130706690) |>.ip (IpAddr.V6 42)) "/rescue" rfl
    (by intro pv h; cases h) (by intro pv h; cases h)

/-- C6 counterexample: `RunningJail::from_jid` performs no check (its own
documentation says so), so it also produces a `RunningJail` whose jid is
negative — the claim that every `RunningJail` produced by `from_jid` has a
non-negative jid fails at input `-1`. -/
theorem from_jid_nonneg_cex :
    ¬ (0 ≤ (RunningJail.from_jid (-1)).jid) := by decide

/-- C6 amended: `RunningJail` carries no data besides the `jid` handle
(values with equal jids are equal), and `from_jid` stores exactly the jid
it is given, unchecked — so the stored handle is non-negative precisely
when the given jid is, as it is for kernel-assigned jids. -/
theorem running_jail_single_field (j : Int) :
    (∀ a b : RunningJail, a.jid = b.jid → a = b) ∧
    (RunningJail.from_jid j).jid = j ∧
    (0 ≤ j → 0 ≤ (RunningJail.from_jid j).jid) := by
  refine ⟨fun a b h => ?_, rfl, fun h => h⟩
  cases a; cases b; simpa using h

/-- Witness for `running_jail_single_field` at jid 5. -/
theorem running_jail_single_field_witness :
    RunningJail.from_jid 5 = { jid := 5 } ∧
    (0 : Int) ≤ (RunningJail.from_jid 5).jid :=
  ⟨(running_jail_single_field 5).1 _ _ rfl,
    (running_jail_single_field 5).2.2 (by decide)⟩

/-- C10: `Jail::start` is a no-op on an already running jail — it returns
`Ok` with the same `RunningJail`, leaves the kernel state unchanged and
issues no kernel call — and on a stopped jail it dispatches to
`StoppedJail::start`, wrapping a success in `Jail::Running`. -/
theorem jail_start_dispatch {σ : Type} (k : Kernel σ) (st : σ)
    (r : RunningJail) (s : StoppedJail) :
    Jail.start k st (Jail.Running r) = (Except.ok (Jail.Running r), st, []) ∧
    Jail.start k st (Jail.Stopped s) =
      ((s.start k st).1.map Jail.Running, (s.start k st).2.1, (s.start k st).2.2) := by
  constructor
  · rfl
  · rcases hs : s.start k st with ⟨res, st', tr⟩
    simp [Jail.start, hs]

end LibJail
